import Mathlib

/-!
Verification development for the devcaption real-time transcription pipeline.

The definitions below are a shallow embedding of the Rust sources:
  - `src/src-tauri/src/lib.rs` (capture callback, session state machine,
    streaming chunker, dispatcher, noise filters, VAD, level meter);
  - `src/src-tauri/src/speech_recognition.rs` (engine result aggregation).

Machine floats (`f32`/`f64`) are modelled by exact rationals `ℚ`: every
property proved here concerns branching structure, list manipulation and
comparisons, none of which depends on rounding.  Rust `usize` arithmetic is
modelled by `ℕ` (all quantities involved stay far below 2^64, and the code
performs no subtraction that could wrap).  Instants are modelled as
millisecond timestamps `ℕ`; `Instant::duration_since` becomes truncated
`ℕ` subtraction, which agrees with the code wherever `now ≥ earlier`.
Text is modelled as `List Char`; the Rust string operations used by the
code (`trim`, `contains`, `matches`, `split_whitespace`, `to_lowercase`,
`ends_with`) are reimplemented below on `List Char`.  All the texts the
claims mention are ASCII, where `Char.toLower` agrees with Rust
`to_lowercase`.
-/

namespace DevCaption

/-! ### Constants (lib.rs lines 51-54 and 165) -/

/-- `SILENCE_THRESHOLD` (lib.rs line 51). -/
def SILENCE_THRESHOLD : ℚ := 5 / 100

/-- `SILENCE_DELAY` (lib.rs line 52), in milliseconds. -/
def SILENCE_DELAY_MS : ℕ := 800

/-- `STREAMING_CHUNK_SIZE` (lib.rs line 53). -/
def STREAMING_CHUNK_SIZE : ℕ := 80000

/-- `MIN_CHUNK_SIZE` (lib.rs line 54). -/
def MIN_CHUNK_SIZE : ℕ := 16000

/-- `overlap_size` (lib.rs line 165). -/
def OVERLAP_SIZE : ℕ := 8000

/-! ### Rust `str` operations on `List Char` -/

/-- ASCII whitespace recognizer; the texts in play contain at most spaces,
tabs and newlines, on which this agrees with Rust `char::is_whitespace`. -/
def isWhite (c : Char) : Bool :=
  c == ' ' || c == '\t' || c == '\n' || c == '\r'

/-- Remove the longest suffix of elements satisfying `p`
(trailing counterpart of `List.dropWhile`). -/
def dropTrailing (p : α → Bool) (l : List α) : List α :=
  (l.reverse.dropWhile p).reverse

/-- Rust `str::trim`: strip leading and trailing whitespace. -/
def trimChars (l : List Char) : List Char :=
  dropTrailing isWhite (l.dropWhile isWhite)

/-- Rust `str::contains` for a string pattern: some contiguous run of
`hay` equals `pat`. -/
def containsSub : List Char → List Char → Bool
  | [], pat => pat.isEmpty
  | h :: t, pat => pat.isPrefixOf (h :: t) || containsSub t pat

/-- Helper for `countMatches`: scan left to right; while `skip > 0` the
scanner is inside an occurrence already counted and does not look for a
new one. -/
def countMatchesAux (pat : List Char) : List Char → ℕ → ℕ
  | [], _ => 0
  | h :: t, 0 =>
    if pat.isPrefixOf (h :: t) then
      1 + countMatchesAux pat t (pat.length - 1)
    else
      countMatchesAux pat t 0
  | _ :: t, Nat.succ skip => countMatchesAux pat t skip

/-- Rust `str::matches(pat).count()` for a non-empty string pattern:
number of non-overlapping occurrences of `pat`, scanning left to right
(after a match the scan resumes past the matched characters). -/
def countMatches (pat : List Char) (l : List Char) : ℕ :=
  countMatchesAux pat l 0

/-- Helper for `splitWs`: `acc` holds the current word, reversed. -/
def splitWsAux : List Char → List Char → List (List Char)
  | [], acc => if acc.isEmpty then [] else [acc.reverse]
  | c :: cs, acc =>
    if isWhite c then
      if acc.isEmpty then splitWsAux cs []
      else acc.reverse :: splitWsAux cs []
    else
      splitWsAux cs (c :: acc)

/-- Rust `str::split_whitespace`: maximal whitespace-free words, in order,
with no empty words. -/
def splitWs (l : List Char) : List (List Char) :=
  splitWsAux l []

/-! ### Noise filters (lib.rs) -/

/-- The pattern `"[BLANK_AUDIO]"` checked by `process_audio_chunk`. -/
def blankAudioPat : List Char := "[BLANK_AUDIO]".toList

/-- The pattern `"you"` checked by `process_audio_chunk`. -/
def youPat : List Char := "you".toList

/-- The `should_skip` test of `process_audio_chunk` (lib.rs lines 323-326).
Its argument is `transcribed_text`, i.e. the engine text already trimmed
once; the code trims it again for the last two disjuncts. -/
def shouldSkip (t : List Char) : Bool :=
  t.isEmpty
    || containsSub t blankAudioPat
    || decide (trimChars t = youPat)
    || decide (2 < countMatches youPat (trimChars t))

/-- `noise_patterns` (lib.rs lines 465-469). -/
def noisePats : List (List Char) :=
  ["[", "]", "(", ")", "♪", "♫", "♬", "♭", "♯",
   "mmm", "uhh", "umm", "err", "ahh",
   "...", "///", "---"].map String.toList

/-- `is_noise_transcription` (lib.rs lines 461-497): denylist patterns on
the lowercased text, then a minimum length of 2 on the trimmed text, then
a first-word repetition test applied only when there are more than 3
words.  This function is defined in the source but never called. -/
def is_noise_transcription (text : List Char) : Bool :=
  let lower := text.map Char.toLower
  if noisePats.any (fun pat => containsSub lower pat) then true
  else if (trimChars text).length < 2 then true
  else
    match splitWs text with
    | [] => false
    | w :: ws =>
      if 3 < (w :: ws).length then
        decide ((w :: ws).length * 4 / 5 < (w :: ws).countP (fun x => x == w))
      else false

/-! ### Transcription dispatch worker (`process_audio_chunk`, lib.rs 289-391) -/

/-- What the engine worker delivers for one chunk (lib.rs 297-312). -/
structure EngineResult where
  text : List Char
  confidence : ℚ
  deriving DecidableEq

/-- Outcome of `rx.recv_timeout(Duration::from_secs(15))` (lib.rs 315):
`success` when the worker sent `Some(result)` within the bound, `failure`
when it sent `None` (engine error, or recognizer lock contention),
`timeout` when no message arrived within 15 s. -/
inductive EngineResponse where
  | success (r : EngineResult)
  | failure
  | timeout
  deriving DecidableEq

/-- Payload of one `transcription-result` emission. -/
structure OutEvent where
  text : List Char
  confidence : ℚ
  isFinal : Bool
  deriving DecidableEq

/-- The session-text append of `process_audio_chunk` (lib.rs 333-336 and
357-360): insert a separating space unless the accumulator is empty or
already ends with one, then append the trimmed text. -/
def appendSession (sessionText t : List Char) : List Char :=
  if ¬sessionText.isEmpty ∧ sessionText.getLast? ≠ some ' ' then
    sessionText ++ [' '] ++ t
  else
    sessionText ++ t

/-- `process_audio_chunk` (lib.rs 289-391), as a function from the engine
response and the current `CURRENT_SESSION_TEXT` to the new session text
and the list of `transcription-result` events emitted.  The `is_final`
and streaming branches of the source are identical except for the
`is_final` flag placed on the event, so they share one code path here. -/
def processAudioChunk (resp : EngineResponse) (isFinal : Bool)
    (sessionText : List Char) : List Char × List OutEvent :=
  match resp with
  | .success r =>
    let transcribedText := trimChars r.text
    if shouldSkip transcribedText then
      (sessionText, [])
    else
      let st := appendSession sessionText transcribedText
      (st, [⟨st, r.confidence, isFinal⟩])
  | .failure => (sessionText, [])
  | .timeout => (sessionText, [])

/-! ### Signal conditioning (capture callback, lib.rs 111-124; also
`preprocess_audio`, speech_recognition.rs 140-154) -/

/-- Average every two adjacent samples, mirroring
`chunks_exact(2).map(|chunk| (chunk[0] + chunk[1]) / 2.0)`: a trailing
odd sample (never present when this is reached) is discarded, exactly as
`chunks_exact` discards the remainder. -/
def downmixPairs : List ℚ → List ℚ
  | a :: b :: rest => (a + b) / 2 :: downmixPairs rest
  | _ => []

/-- The stereo-to-mono conversion of the capture callback (lib.rs
111-118): the branch condition is `audio_data.len() % 2 == 0`, i.e. the
parity of the sample count of the delivered slice. -/
def convertToMono (audioData : List ℚ) : List ℚ :=
  if audioData.length % 2 = 0 then downmixPairs audioData
  else audioData

/-- Follows the spec's words, for comparison with `convertToMono`: "if
channel count is even/stereo-paired, average adjacent sample pairs;
otherwise pass through unchanged" — conditioned on the channel count,
which the code's frame handler does not actually receive. -/
def downmixSpecWords (channelCount : ℕ) (audioData : List ℚ) : List ℚ :=
  if channelCount % 2 = 0 then downmixPairs audioData
  else audioData

/-- The naive decimation `mono_data.iter().step_by(3)` (lib.rs 121-124):
keep indices 0, 3, 6, ... -/
def resampleStepBy3 (monoData : List ℚ) : List ℚ :=
  (monoData.enum.filter (fun p => p.1 % 3 = 0)).map (fun p => p.2)

/-! ### Voice activity detection (`detect_voice_activity`, lib.rs 414-459).
This function is defined in the source but the live pipeline gates on
`level > SILENCE_THRESHOLD` instead; the claims about it concern the
function itself. -/

/-- The index-weighted mean-squared energy of lib.rs 420-426:
`freq_weight = min(i / len, 1)`, energy `= Σ (sample * freq_weight)^2 / len`. -/
def weightedEnergy (audioData : List ℚ) : ℚ :=
  ((audioData.enum.map
      (fun p => (p.2 * min ((p.1 : ℚ) / audioData.length) 1) ^ 2)).sum)
    / audioData.length

/-- The zero-crossing count of lib.rs 429-435: adjacent pairs whose signs
(compared as `> 0`) differ and whose difference exceeds 0.01 in
magnitude. -/
def zeroCrossings (audioData : List ℚ) : ℕ :=
  (audioData.zip audioData.tail).countP
    (fun p => (decide (0 < p.1) != decide (0 < p.2)) && decide (1 / 100 < |p.1 - p.2|))

/-- `zcr` (lib.rs 437). -/
def zcrOf (audioData : List ℚ) : ℚ :=
  (zeroCrossings audioData : ℚ) / audioData.length

/-- The spectral-centroid approximation of lib.rs 440-453. -/
def spectralCentroid (audioData : List ℚ) : ℚ :=
  let spectralSum := (audioData.enum.map (fun p => (p.1 : ℚ) * |p.2|)).sum
  let magnitudeSum := (audioData.map (fun s => |s|)).sum
  if 0 < magnitudeSum then spectralSum / magnitudeSum / audioData.length
  else 0

/-- `detect_voice_activity` (lib.rs 414-459): empty input is silence;
otherwise speech iff the energy exceeds the threshold AND the ZCR lies in
(0.01, 0.35) AND the centroid proxy lies in (0.1, 0.3). -/
def detect_voice_activity (audioData : List ℚ) (threshold : ℚ) : Bool :=
  if audioData.isEmpty then false
  else
    decide (threshold < weightedEnergy audioData)
      && decide (1 / 100 < zcrOf audioData) && decide (zcrOf audioData < 35 / 100)
      && decide (1 / 10 < spectralCentroid audioData)
      && decide (spectralCentroid audioData < 3 / 10)

/-! ### Session controller state machine (capture callback, lib.rs 126-229;
`stop_audio_capture`, lib.rs 240-269) -/

/-- The mutable state of one capture run: the statics `IS_RECORDING`,
`IS_PROCESSING`, `LAST_VOICE_TIME`, `RECORDING_START_TIME`,
`LAST_PARTIAL_PROCESSING` (here `lastStreamMark`), `CURRENT_SESSION_TEXT`
and the callback-local `audio_buffer`.  `outstanding` is a ghost field
counting spawned transcription workers whose processing has not yet
completed; the code does not store it, it is what claim C1's
"at most one dispatch in flight" is about. -/
structure SessionState where
  isRecording : Bool
  isProcessing : Bool
  audioBuffer : List ℚ
  lastVoiceTime : Option ℕ
  recordingStartTime : Option ℕ
  lastStreamMark : Option ℕ
  sessionText : List Char
  outstanding : ℕ
  deriving DecidableEq

/-- The state right after `start_audio_capture` installs the callback. -/
def initState : SessionState :=
  { isRecording := false, isProcessing := false, audioBuffer := [],
    lastVoiceTime := none, recordingStartTime := none,
    lastStreamMark := none, sessionText := [], outstanding := 0 }

/-- Chunk kinds: `is_final = false` (streaming) or `true` (final). -/
inductive ChunkKind where
  | streaming
  | final
  deriving DecidableEq

/-- A dispatch handed to a `process_audio_chunk` worker thread. -/
structure Dispatch where
  kind : ChunkKind
  samples : List ℚ
  deriving DecidableEq

/-- The streaming chunk extraction of lib.rs 164-169:
`chunk = audio_buffer[..C]`, then `audio_buffer.drain(..(C - O))`. -/
def extractStreamingChunk (c o : ℕ) (buf : List ℚ) : List ℚ × List ℚ :=
  (buf.take c, buf.drop (c - o))

/-- One invocation of the capture callback (lib.rs 93-229), minus the
audio-level emission (which touches no session state).  Arguments:

* `hasVoice` — the value of `level > SILENCE_THRESHOLD` (lib.rs 127);
  the level itself involves a square root and is irrelevant to the
  claims about this step.
* `samples` — `resampled_data`, the conditioned samples appended to the
  buffer.
* `now` — the callback's `Instant::now()` in milliseconds.
* `waitClears` — resolves the one point where the callback races the
  worker: in the final-chunk path the code polls `IS_PROCESSING` up to
  20 times, 100 ms apart; `waitClears = true` means the in-flight
  worker completed during that bounded wait (its flag-clearing store is
  folded into this step), `false` means the flag was still set after
  the bound.

Returns the new state and the dispatch started by this invocation, if
any. -/
def stepFrame (s : SessionState) (hasVoice : Bool) (samples : List ℚ)
    (now : ℕ) (waitClears : Bool) : SessionState × Option Dispatch :=
  if hasVoice then
    -- lib.rs 130-178
    let s1 := { s with lastVoiceTime := some now }
    let s2 :=
      if ¬s1.isRecording then
        { s1 with isRecording := true, audioBuffer := [], sessionText := [],
                  recordingStartTime := some now, lastStreamMark := some now }
      else s1
    let s3 := { s2 with audioBuffer := s2.audioBuffer ++ samples }
    if STREAMING_CHUNK_SIZE ≤ s3.audioBuffer.length ∧ s3.isProcessing = false then
      let ex := extractStreamingChunk STREAMING_CHUNK_SIZE OVERLAP_SIZE s3.audioBuffer
      ({ s3 with isProcessing := true, audioBuffer := ex.2,
                 outstanding := s3.outstanding + 1 },
       some ⟨.streaming, ex.1⟩)
    else
      (s3, none)
  else
    -- lib.rs 180-229
    if s.isRecording then
      match s.lastVoiceTime with
      | none => (s, none)
      | some lastTime =>
        if SILENCE_DELAY_MS ≤ now - lastTime then
          let s1 := { s with isRecording := false }
          if s1.audioBuffer ≠ [] ∧ MIN_CHUNK_SIZE ≤ s1.audioBuffer.length then
            if s1.isProcessing = false ∨ waitClears = true then
              let s2 :=
                if s1.isProcessing then
                  { s1 with isProcessing := false, outstanding := s1.outstanding - 1 }
                else s1
              ({ s2 with isProcessing := true, audioBuffer := [],
                         outstanding := s2.outstanding + 1 },
               some ⟨.final, s2.audioBuffer⟩)
            else
              (s1, none)
          else if s1.audioBuffer ≠ [] then
            ({ s1 with audioBuffer := [] }, none)
          else
            (s1, none)
        else
          (s, none)
    else
      (s, none)

/-- The state reset performed by `stop_audio_capture` (lib.rs 246-263)
when a capture system is running. -/
def stopAudioCapture (s : SessionState) : SessionState :=
  { s with isRecording := false, isProcessing := false,
           lastVoiceTime := none, recordingStartTime := none,
           lastStreamMark := none, sessionText := [] }

/-- Interleaved events of one capture run: callback invocations and
worker completions (`IS_PROCESSING.store(false)` at lib.rs 176 / 213,
run when the worker's `process_audio_chunk` returns). -/
inductive Ev where
  | frame (hasVoice : Bool) (samples : List ℚ) (now : ℕ) (waitClears : Bool)
  | workerDone
  deriving DecidableEq

/-- Apply one event to the session state. -/
def stepEv (s : SessionState) : Ev → SessionState
  | .frame hv samples now wc => (stepFrame s hv samples now wc).1
  | .workerDone =>
    if s.isProcessing then
      { s with isProcessing := false, outstanding := s.outstanding - 1 }
    else s

/-- The state reached by a capture run after a sequence of events. -/
def run (evs : List Ev) : SessionState :=
  evs.foldl stepEv initState

/-! ### Engine result aggregation (`transcribe_audio`,
speech_recognition.rs 75-138) -/

/-- One whisper segment: its text and its per-token probabilities. -/
structure Segment where
  text : List Char
  tokenProbs : List ℚ
  deriving DecidableEq

/-- The segment loop of `transcribe_audio` (speech_recognition.rs
105-120), accumulating `(text, total_confidence, token_count)`. -/
def segmentFold (segs : List Segment) : List Char × ℚ × ℕ :=
  segs.foldl
    (fun acc seg =>
      (acc.1 ++ seg.text,
       acc.2.1 + seg.tokenProbs.foldl (fun a p => a + p) 0,
       acc.2.2 + seg.tokenProbs.length))
    ([], 0, 0)

/-- The confidence returned by `transcribe_audio` (speech_recognition.rs
122-126): the token-probability mean, or 0.0 when no token was produced. -/
def transcribeConfidence (segs : List Segment) : ℚ :=
  let acc := segmentFold segs
  if 0 < acc.2.2 then acc.2.1 / (acc.2.2 : ℚ) else 0

/-- The `TranscriptionResult` built by `transcribe_audio`
(speech_recognition.rs 128-133): trimmed concatenated segment text and
the guarded confidence mean. -/
def transcribe_audio (segs : List Segment) : EngineResult :=
  { text := trimChars (segmentFold segs).1, confidence := transcribeConfidence segs }

/-- Total number of tokens across all segments (statement vocabulary). -/
def numTokens (segs : List Segment) : ℕ :=
  (segs.map (fun s => s.tokenProbs.length)).sum

/-- Sum of all per-token probabilities across all segments (statement
vocabulary). -/
def totalProb (segs : List Segment) : ℚ :=
  (segs.map (fun s => s.tokenProbs.sum)).sum

/-! ## Helper lemmas -/

theorem foldl_add_sum (l : List ℚ) (a : ℚ) :
    l.foldl (fun x p => x + p) a = a + l.sum := by
  induction l generalizing a with
  | nil => simp
  | cons h t ih => simp [ih, add_assoc]

theorem segmentFold_components (segs : List Segment) :
    ∀ acc : List Char × ℚ × ℕ,
      (segs.foldl
        (fun acc seg =>
          (acc.1 ++ seg.text,
           acc.2.1 + seg.tokenProbs.foldl (fun a p => a + p) 0,
           acc.2.2 + seg.tokenProbs.length))
        acc).2.1 = acc.2.1 + totalProb segs ∧
      (segs.foldl
        (fun acc seg =>
          (acc.1 ++ seg.text,
           acc.2.1 + seg.tokenProbs.foldl (fun a p => a + p) 0,
           acc.2.2 + seg.tokenProbs.length))
        acc).2.2 = acc.2.2 + numTokens segs := by
  induction segs with
  | nil => intro acc; simp [totalProb, numTokens]
  | cons seg rest ih =>
    intro acc
    simp only [List.foldl_cons]
    constructor
    · rw [(ih _).1, foldl_add_sum]
      simp [totalProb, add_assoc]
    · rw [(ih _).2]
      simp [numTokens]
      omega

/-! ## Claims -/

/-- C5: when the dispatched chunk's recognition does not deliver a result
within the 15 s bound (or the engine fails), `process_audio_chunk` emits
no `transcription-result` event and leaves the session text unchanged,
and the spawning site's `IS_PROCESSING.store(false)` (the `workerDone`
event) clears the in-flight flag unconditionally afterwards, so the next
chunk can be dispatched. -/
theorem C5_timeout_discards (isFin : Bool) (st : List Char) (s : SessionState) :
    processAudioChunk .timeout isFin st = (st, []) ∧
    processAudioChunk .failure isFin st = (st, []) ∧
    (stepEv s .workerDone).isProcessing = false := by
  refine ⟨rfl, rfl, ?_⟩
  simp only [stepEv]
  split <;> simp_all

/-- C10: the confidence computed by `transcribe_audio` is total — when
the engine yields zero tokens across all segments it is exactly 0, and
otherwise it is the arithmetic mean of the per-token probabilities. -/
theorem C10_confidence_total (segs : List Segment) :
    (numTokens segs = 0 → transcribeConfidence segs = 0) ∧
    (0 < numTokens segs →
      transcribeConfidence segs = totalProb segs / (numTokens segs : ℚ)) := by
  have h1 : (segmentFold segs).2.1 = totalProb segs := by
    simpa [segmentFold] using (segmentFold_components segs ([], 0, 0)).1
  have h2 : (segmentFold segs).2.2 = numTokens segs := by
    simpa [segmentFold] using (segmentFold_components segs ([], 0, 0)).2
  constructor
  · intro hz
    simp only [transcribeConfidence, h1, h2, hz]
    simp
  · intro hp
    simp only [transcribeConfidence, h1, h2]
    simp [hp]

/-- C10 witness: concrete evaluations of both cases. -/
theorem C10_confidence_total_witness :
    transcribeConfidence [] = 0 ∧
    (transcribeConfidence [⟨"hi".toList, [(1 : ℚ)/2, 1/4]⟩] =
      totalProb [⟨"hi".toList, [(1 : ℚ)/2, 1/4]⟩] /
        (numTokens [⟨"hi".toList, [(1 : ℚ)/2, 1/4]⟩] : ℚ)) :=
  ⟨(C10_confidence_total []).1 (by decide),
   (C10_confidence_total [⟨"hi".toList, [(1 : ℚ)/2, 1/4]⟩]).2 (by decide)⟩

/-- C8 counterexample: the claim conditions the downmix on the channel
count; the code conditions it on the parity of the slice length.  A
mono (odd channel count) frame holding an even number of samples, here
`[1, 3]`, is averaged by the code to `[2]` instead of passing through
unchanged as the claim's "otherwise" branch requires. -/
theorem C8_counterexample :
    convertToMono [1, 3] = [2] ∧
    downmixSpecWords 1 [1, 3] = [1, 3] ∧
    convertToMono [1, 3] ≠ downmixSpecWords 1 [1, 3] := by
  have h1 : convertToMono [1, 3] = [2] := by
    simp [convertToMono, downmixPairs]
    norm_num
  have h2 : downmixSpecWords 1 [1, 3] = [1, 3] := by
    simp [downmixSpecWords]
  refine ⟨h1, h2, ?_⟩
  rw [h1, h2]
  simp

/-- C8 amended: the conditioner downmixes exactly when the frame's sample
count is even — averaging each pair of adjacent samples — and passes
odd-length frames through unchanged; whenever the channel count is even
(as with the stream's interleaved stereo, sample count = channels ×
frames) the downmix branch is taken, agreeing with the spec's
channel-count reading. -/
theorem C8_downmix_parity (audioData rest : List ℚ) (a b : ℚ) (c f : ℕ) :
    (audioData.length % 2 ≠ 0 → convertToMono audioData = audioData) ∧
    (rest.length % 2 = 0 →
      convertToMono (a :: b :: rest) = (a + b) / 2 :: convertToMono rest) ∧
    (audioData.length = c * f → c % 2 = 0 →
      convertToMono audioData = downmixPairs audioData ∧
      downmixSpecWords c audioData = downmixPairs audioData) := by
  refine ⟨?_, ?_, ?_⟩
  · intro h
    simp [convertToMono, h]
  · intro h
    have hl : (a :: b :: rest).length % 2 = 0 := by
      simp [List.length_cons]
      omega
    unfold convertToMono
    rw [if_pos hl, if_pos h]
    rfl
  · intro hlen hc
    have h2 : audioData.length % 2 = 0 := by
      rw [hlen, Nat.mul_mod, hc]
      simp
    exact ⟨by simp [convertToMono, h2], by simp [downmixSpecWords, hc]⟩

/-- C8 witness: concrete instances of all three conjuncts. -/
theorem C8_downmix_parity_witness :
    convertToMono [5] = [5] ∧
    convertToMono [1, 3] = (1 + 3) / 2 :: convertToMono [] ∧
    convertToMono [1, 3] = downmixPairs [1, 3] := by
  refine ⟨(C8_downmix_parity [5] [] 0 0 0 0).1 (by decide),
          (C8_downmix_parity [0] [] 1 3 0 0).2.1 (by decide),
          ((C8_downmix_parity [1, 3] [] 0 0 2 1).2.2 (by decide) (by decide)).1⟩

/-- C3 counterexample: with the configured chunk size C = 80000 and
overlap O = 8000, extracting a Streaming chunk from a buffer of 80001
samples leaves 8001 samples, not exactly O = 8000: the code drains only
the first C − O samples, so the post-extraction length is `len − (C − O)`,
which exceeds O whenever the buffer had grown past C before the cut. -/
theorem C3_counterexample :
    STREAMING_CHUNK_SIZE ≤ (List.replicate 80001 (0 : ℚ)).length ∧
    (extractStreamingChunk STREAMING_CHUNK_SIZE OVERLAP_SIZE
        (List.replicate 80001 (0 : ℚ))).2.length ≠ OVERLAP_SIZE := by
  constructor
  · rw [List.length_replicate]
    norm_num [STREAMING_CHUNK_SIZE]
  · simp only [extractStreamingChunk]
    rw [List.length_drop, List.length_replicate]
    norm_num [STREAMING_CHUNK_SIZE, OVERLAP_SIZE]

/-- C3 amended: for every buffer of length at least C from which a
Streaming chunk is extracted, the chunk is exactly the first C samples,
and the buffer afterwards holds `len − (C − O)` samples — which equals
the overlap O precisely when the buffer held exactly C samples at
extraction time (for any configured C > O ≥ 0). -/
theorem C3_chunk_extraction (c o : ℕ) (buf : List ℚ)
    (ho : o < c) (hc : c ≤ buf.length) :
    (extractStreamingChunk c o buf).1 = buf.take c ∧
    (extractStreamingChunk c o buf).1.length = c ∧
    (extractStreamingChunk c o buf).2.length = buf.length - (c - o) ∧
    ((extractStreamingChunk c o buf).2.length = o ↔ buf.length = c) := by
  refine ⟨rfl, ?_, ?_, ?_⟩
  · simp [extractStreamingChunk, List.length_take]
    omega
  · simp [extractStreamingChunk, List.length_drop]
  · simp [extractStreamingChunk, List.length_drop]
    omega

/-- C3 witness: the amended statement at C = 2, O = 1 on a two-sample
buffer. -/
theorem C3_chunk_extraction_witness :
    (extractStreamingChunk 2 1 [(0 : ℚ), 0]).1.length = 2 ∧
    ((extractStreamingChunk 2 1 [(0 : ℚ), 0]).2.length = 1 ↔
      ([(0 : ℚ), 0]).length = 2) :=
  ⟨(C3_chunk_extraction 2 1 [(0 : ℚ), 0] (by decide) (by decide)).2.1,
   (C3_chunk_extraction 2 1 [(0 : ℚ), 0] (by decide) (by decide)).2.2.2⟩

/-- C6: whenever a frame's index-weighted mean-squared energy does not
exceed the threshold, `detect_voice_activity` decides silence regardless
of the ZCR and centroid values; and it decides speech exactly when the
frame is non-empty and all three feature conditions hold conjunctively. -/
theorem C6_energy_gate (audioData : List ℚ) (threshold : ℚ) :
    (weightedEnergy audioData ≤ threshold →
      detect_voice_activity audioData threshold = false) ∧
    (detect_voice_activity audioData threshold = true ↔
      (audioData ≠ [] ∧ threshold < weightedEnergy audioData ∧
       1 / 100 < zcrOf audioData ∧ zcrOf audioData < 35 / 100 ∧
       1 / 10 < spectralCentroid audioData ∧
       spectralCentroid audioData < 3 / 10)) := by
  constructor
  · intro h
    have hn : ¬ threshold < weightedEnergy audioData := not_lt.mpr h
    simp only [detect_voice_activity]
    split
    · rfl
    · simp [hn]
  · simp only [detect_voice_activity]
    split
    · simp_all [List.isEmpty_iff]
    · simp_all [List.isEmpty_iff, and_assoc]

/-- C6 witness: the frame `[0]` has weighted energy 0, so at threshold 0
the gate decides silence. -/
theorem C6_energy_gate_witness :
    weightedEnergy [0] ≤ 0 ∧ detect_voice_activity [0] 0 = false := by
  have he : weightedEnergy [0] ≤ 0 := by
    simp [weightedEnergy, List.enum, List.enumFrom]
  exact ⟨he, (C6_energy_gate [0] 0).1 he⟩

/-! ## Trimming is idempotent (needed because the code re-trims the
already-trimmed text inside `should_skip`) -/

theorem dropWhile_dropWhile (p : α → Bool) (l : List α) :
    (l.dropWhile p).dropWhile p = l.dropWhile p := by
  induction l with
  | nil => rfl
  | cons a t ih =>
    by_cases h : p a
    · simp [List.dropWhile_cons, h, ih]
    · simp [List.dropWhile_cons, h]

theorem dropTrailing_concat (p : α → Bool) (xs : List α) (x : α) :
    dropTrailing p (xs ++ [x]) =
      if p x then dropTrailing p xs else xs ++ [x] := by
  by_cases h : p x
  · simp [dropTrailing, List.reverse_append, List.dropWhile_cons, h]
  · simp [dropTrailing, List.reverse_append, List.dropWhile_cons, h]

theorem dropTrailing_dropTrailing (p : α → Bool) (l : List α) :
    dropTrailing p (dropTrailing p l) = dropTrailing p l := by
  simp [dropTrailing, dropWhile_dropWhile]

theorem dropWhile_dropTrailing_comm (p : α → Bool) (l : List α) :
    (dropTrailing p l).dropWhile p = dropTrailing p (l.dropWhile p) := by
  induction l using List.reverseRecOn with
  | nil => rfl
  | append_singleton xs x ih =>
    rw [dropTrailing_concat]
    by_cases hx : p x
    · rw [if_pos hx, ih, List.dropWhile_append]
      by_cases he : (xs.dropWhile p).isEmpty
      · have hnil : xs.dropWhile p = [] := by
          simpa [List.isEmpty_iff] using he
        simp [he, hnil, List.dropWhile_cons, hx, dropTrailing]
      · rw [if_neg he, dropTrailing_concat, if_pos hx]
    · rw [if_neg hx, List.dropWhile_append]
      by_cases he : (xs.dropWhile p).isEmpty
      · simp [he, List.dropWhile_cons, hx, dropTrailing]
      · rw [if_neg he, dropTrailing_concat, if_neg hx]

theorem trimChars_trimChars (l : List Char) :
    trimChars (trimChars l) = trimChars l := by
  unfold trimChars
  rw [dropWhile_dropTrailing_comm, dropWhile_dropWhile, dropTrailing_dropTrailing]

/-! ## Claims about the result filter -/

/-- C9: every engine outcome whose trimmed text equals exactly `"you"`,
or contains the substring `"you"` more than twice — occurrences inside
longer words such as `"your"` or `"young"` count, as the final conjunct
illustrates — is dropped by `process_audio_chunk`: the session text is
unchanged and no `transcription-result` event is emitted, regardless of
the text's overall length or content. -/
theorem C9_you_filter (txt : List Char) (conf : ℚ) (isFin : Bool)
    (st : List Char)
    (h : trimChars txt = youPat ∨ 2 < countMatches youPat (trimChars txt)) :
    shouldSkip (trimChars txt) = true ∧
    processAudioChunk (.success ⟨txt, conf⟩) isFin st = (st, []) ∧
    countMatches youPat ("your young yourself".toList) = 3 := by
  have hskip : shouldSkip (trimChars txt) = true := by
    rcases h with h | h
    · rw [h]
      decide
    · rw [shouldSkip, trimChars_trimChars]
      simp [h]
  refine ⟨hskip, ?_, by decide⟩
  simp [processAudioChunk, hskip]

/-- C9 witness: the outcome `" you  "` (trimmed text exactly `"you"`) and
the outcome `"I like your young yourself ok"` (three `"you"` substrings)
are both dropped with the session text untouched. -/
theorem C9_you_filter_witness :
    processAudioChunk (.success ⟨" you  ".toList, 1⟩) false "abc".toList =
      ("abc".toList, []) ∧
    processAudioChunk (.success ⟨"I like your young yourself ok".toList, 1⟩)
        true [] = ([], []) :=
  ⟨(C9_you_filter " you  ".toList 1 false "abc".toList
      (Or.inl (by decide))).2.1,
   (C9_you_filter "I like your young yourself ok".toList 1 true []
      (Or.inr (by decide))).2.1⟩

/-- C2 counterexample: the filter actually applied to engine outcomes is
the `should_skip` test of `process_audio_chunk`, not
`is_noise_transcription`; for the engine text `"[noise]"` the denylist
function would reject it, but `should_skip` accepts it and the pipeline
emits a `transcription-result` event carrying it — contradicting both
"rejects [noise]" and "rejected exactly when ... matches the fixed
denylist". -/
theorem C2_counterexample :
    is_noise_transcription "[noise]".toList = true ∧
    shouldSkip (trimChars "[noise]".toList) = false ∧
    processAudioChunk (.success ⟨"[noise]".toList, 1⟩) false [] =
      ("[noise]".toList, [⟨"[noise]".toList, 1, false⟩]) := by
  refine ⟨by decide, by decide, ?_⟩
  have hskip : shouldSkip "[noise]".toList = false := by decide
  have htrim : trimChars "[noise]".toList = "[noise]".toList := by decide
  simp only [processAudioChunk, htrim, hskip]
  simp [appendSession]

/-- C2 amended: the outcome filter that gates `transcription-result`
events is `should_skip`: an outcome is rejected exactly when its trimmed
text is empty, contains `"[BLANK_AUDIO]"`, equals `"you"`, or contains
the substring `"you"` more than twice, and rejected outcomes produce no
event.  Under it `"you you you"` is rejected (by the `"you"`-count rule)
and `"Hello, how are you today"` is accepted, but `"[noise]"` is
accepted: the denylist/min-length/repetition function
`is_noise_transcription` — which rejects `"[noise]"` and accepts the
other two (its repetition test requires more than 3 words, so it does
not fire on `"you you you"`) — is defined but never invoked. -/
theorem C2_filter_behavior (txt : List Char) (conf : ℚ) (isFin : Bool)
    (st : List Char) :
    (shouldSkip (trimChars txt) = true →
      processAudioChunk (.success ⟨txt, conf⟩) isFin st = (st, [])) ∧
    shouldSkip (trimChars "you you you".toList) = true ∧
    shouldSkip (trimChars "Hello, how are you today".toList) = false ∧
    shouldSkip (trimChars "[noise]".toList) = false ∧
    is_noise_transcription "[noise]".toList = true ∧
    is_noise_transcription "you you you".toList = false ∧
    is_noise_transcription "Hello, how are you today".toList = false := by
  refine ⟨?_, by decide, by decide, by decide, by decide, by decide, by decide⟩
  intro h
  simp [processAudioChunk, h]

/-- C2 witness: the rejected outcome `"you you you"` yields no event and
leaves the session text unchanged. -/
theorem C2_filter_behavior_witness :
    processAudioChunk (.success ⟨"you you you".toList, 1⟩) true "hi".toList =
      ("hi".toList, []) :=
  (C2_filter_behavior "you you you".toList 1 true "hi".toList).1 (by decide)

/-! ## Claims about the session state machine -/

theorem stepEv_outstanding (s : SessionState) (e : Ev)
    (h : s.outstanding = if s.isProcessing then 1 else 0) :
    (stepEv s e).outstanding = if (stepEv s e).isProcessing then 1 else 0 := by
  cases e with
  | workerDone =>
    simp only [stepEv]
    split <;> simp_all
  | frame hv samples now wc =>
    simp only [stepEv, stepFrame]
    cases hlv : s.lastVoiceTime with
    | none => split_ifs <;> simp_all
    | some t =>
      by_cases htime : SILENCE_DELAY_MS ≤ now - t
      · simp only [htime, if_true]
        split_ifs <;> simp_all
      · simp only [htime, if_false]
        split_ifs <;> simp_all

/-- C1: throughout a capture run, at most one transcription dispatch is
outstanding at any time.  In the model a Streaming dispatch requires the
in-flight flag clear (otherwise the chunk request is skipped), a Final
dispatch either sees the flag clear, observes the in-flight worker
complete within the bounded wait, or is skipped, every dispatch sets the
flag before the worker spawns, and the flag is cleared when the worker's
processing completes (`workerDone`); consequently after any interleaving
of callback invocations and worker completions the number of outstanding
workers equals the flag — in particular it never exceeds one. -/
theorem C1_single_flight (evs : List Ev) :
    (run evs).outstanding ≤ 1 ∧
    (run evs).outstanding = if (run evs).isProcessing then 1 else 0 := by
  have main : ∀ (l : List Ev) (s : SessionState),
      (s.outstanding = if s.isProcessing then 1 else 0) →
      ((l.foldl stepEv s).outstanding =
        if (l.foldl stepEv s).isProcessing then 1 else 0) := by
    intro l
    induction l with
    | nil => intro s h; simpa using h
    | cons e t ih =>
      intro s h
      simp only [List.foldl_cons]
      exact ih _ (stepEv_outstanding s e h)
  have h := main evs initState rfl
  simp only [run]
  refine ⟨?_, h⟩
  rw [h]
  split <;> omega

/-- C4: a silent frame arriving while Recording with last-voice time t0,
at current time t0 + d, leaves the controller exactly as it was (still
Recording, buffer unchanged, nothing dispatched) whenever
d < silence_delay (800 ms), and moves it to Idle exactly when
d ≥ silence_delay. -/
theorem C4_silence_timing (s : SessionState) (t0 d : ℕ) (samples : List ℚ)
    (wc : Bool) (h1 : s.isRecording = true) (h2 : s.lastVoiceTime = some t0) :
    (d < SILENCE_DELAY_MS → stepFrame s false samples (t0 + d) wc = (s, none)) ∧
    (SILENCE_DELAY_MS ≤ d →
      (stepFrame s false samples (t0 + d) wc).1.isRecording = false) := by
  constructor
  · intro hd
    have hn : ¬ SILENCE_DELAY_MS ≤ d := by omega
    simp [stepFrame, h1, h2, hn]
  · intro hd
    simp [stepFrame, h1, h2, hd]
    split_ifs <;> simp

/-- C4 witness: a Recording state with last-voice time 0 is untouched by
a silent frame at time 0, and leaves Recording on a silent frame at time
800 ms. -/
theorem C4_silence_timing_witness :
    stepFrame { initState with isRecording := true, lastVoiceTime := some 0 }
        false [] (0 + 0) false =
      ({ initState with isRecording := true, lastVoiceTime := some 0 }, none) ∧
    (stepFrame { initState with isRecording := true, lastVoiceTime := some 0 }
        false [] (0 + 800) false).1.isRecording = false :=
  ⟨(C4_silence_timing _ 0 0 [] false rfl rfl).1
      (by norm_num [SILENCE_DELAY_MS]),
   (C4_silence_timing _ 0 800 [] false rfl rfl).2
      (by norm_num [SILENCE_DELAY_MS])⟩

/-- C7 counterexample: `stop_audio_capture` clears a non-empty
SessionText without any new recording session starting (the state is
Idle before and after), so "SessionText is cleared only at an
Idle→Recording transition; no other operation in the pipeline clears
it" is false of the code. -/
theorem C7_counterexample :
    (stopAudioCapture { initState with sessionText := "hello".toList }).sessionText = [] ∧
    ({ initState with sessionText := "hello".toList } : SessionState).sessionText ≠ [] ∧
    (stopAudioCapture { initState with sessionText := "hello".toList }).isRecording = false ∧
    ({ initState with sessionText := "hello".toList } : SessionState).isRecording = false :=
  ⟨rfl, by decide, rfl, rfl⟩

/-- C7 amended: during frame processing SessionText is cleared exactly at
an Idle→Recording transition (a speech frame arriving while not
recording) and is otherwise left untouched by the frame step; result
aggregation never empties a non-empty SessionText (it only appends); but
additionally `stop_audio_capture` clears SessionText when it tears the
capture run down. -/
theorem C7_session_text_clearing (s : SessionState) (hv : Bool)
    (samples : List ℚ) (now : ℕ) (wc : Bool) (resp : EngineResponse)
    (isFin : Bool) (st : List Char) :
    (s.isRecording = false → hv = true →
      (stepFrame s hv samples now wc).1.sessionText = []) ∧
    (s.isRecording = true ∨ hv = false →
      (stepFrame s hv samples now wc).1.sessionText = s.sessionText) ∧
    (stopAudioCapture s).sessionText = [] ∧
    (st ≠ [] → (processAudioChunk resp isFin st).1 ≠ []) := by
  refine ⟨?_, ?_, rfl, ?_⟩
  · intro hr hv1
    subst hv1
    simp only [stepFrame, if_true, hr]
    split_ifs <;> simp_all
  · intro hcase
    by_cases hvv : hv = true
    · have hr : s.isRecording = true := by
        rcases hcase with h | h
        · exact h
        · rw [hvv] at h; cases h
      subst hvv
      simp only [stepFrame, if_true, hr]
      split_ifs <;> simp_all
    · have hv0 : hv = false := by cases hv <;> simp_all
      subst hv0
      simp only [stepFrame, Bool.false_eq_true, if_false]
      cases hlv : s.lastVoiceTime with
      | none => split_ifs <;> simp_all
      | some t =>
        by_cases htime : SILENCE_DELAY_MS ≤ now - t
        · simp only [htime, if_true]
          split_ifs <;> simp_all
        · simp only [htime, if_false]
          split_ifs <;> simp_all
  · intro hst
    cases resp with
    | success r =>
      simp only [processAudioChunk]
      split_ifs with h
      · simpa using hst
      · simp only [appendSession]
        split_ifs with h2 <;> simp [hst]
    | failure => simpa using hst
    | timeout => simpa using hst

/-- C7 witness: concrete instances — a speech frame while Idle clears
SessionText; a speech frame while Recording preserves it; aggregation
never empties a non-empty SessionText. -/
theorem C7_session_text_clearing_witness :
    (stepFrame initState true [] 7 false).1.sessionText = [] ∧
    (stepFrame { initState with isRecording := true } true [] 7 false).1.sessionText =
      ({ initState with isRecording := true } : SessionState).sessionText ∧
    (processAudioChunk .failure false "x".toList).1 ≠ [] :=
  ⟨(C7_session_text_clearing initState true [] 7 false .failure false []).1
      rfl rfl,
   (C7_session_text_clearing { initState with isRecording := true } true [] 7
      false .failure false []).2.1 (Or.inl rfl),
   (C7_session_text_clearing initState true [] 7 false .failure false
      "x".toList).2.2.2 (by decide)⟩

end DevCaption
